import Mathlib

/-!
Verification of the Multi-Source Data Shipper (src/main2.py, src/main.py)
against its natural-language specification.

The embedding models: the backoff policy, the NDJSON batch encoder with
size-adaptive gzip compression, the per-key provider fetch retry loop, the
source registry, the poll orchestrator, and the shipper with 413 batch
splitting.  Network interaction is modelled by response functions (the
outcome of the i-th request), the random source by an injected rational
sequence, and gzip (an external library, not code of this repository) by an
abstract lossless codec.  Async gather is sequentialized: the result-level
semantics (all keys fetched, failures isolated per key) is what is modelled.
-/

/-- A decimal digit. -/
abbrev Digit := Fin 10

/-- A JSON number literal as Python json.dumps emits for a float in its plain
decimal range: optional minus sign, a nonempty run of integer digits, a dot,
and a nonempty run of fractional digits (Python float repr always prints at
least one fractional digit, e.g. "18.0"). -/
structure JNum where
  neg : Bool
  ipHead : Digit
  ipTail : List Digit
  fpHead : Digit
  fpTail : List Digit
deriving DecidableEq

/-- NormalizedEvent (spec section 3): the common event shape produced by every
source; field order in the Python dict literals is city, temperature_celsius,
description, source_provider. -/
structure Event where
  city : Option String
  temperature_celsius : Option JNum
  description : Option String
  source_provider : String
deriving DecidableEq

/-- BASE_BACKOFF = 0.5 seconds (src/main2.py line 52, src/main.py line 15). -/
def BASE_BACKOFF : ℚ := 1 / 2

/-- MAX_RETRIES = 5 (src/main2.py line 53, src/main.py line 14). -/
def MAX_RETRIES : Nat := 5

/-- NDJSON_GZIP_THRESHOLD = 64_000 (src/main2.py line 54). -/
def NDJSON_GZIP_THRESHOLD : Nat := 64000

/-- backoff(attempt, retry_after_s) (src/main2.py lines 56-60; identical in
src/main.py lines 63-66).  rand is the injected value of random.random(). -/
def backoff (attempt : Nat) (retry_after_s : Option ℚ) (rand : ℚ) : ℚ :=
  match retry_after_s with
  | some h => h
  | none => BASE_BACKOFF * 2 ^ attempt + rand * (1 / 2)

/-- The retryable HTTP statuses (src/main2.py lines 142, 192, 245). -/
def retryableStatuses : List Nat := [429, 500, 502, 503, 504, 408]

-- ------------ Shipper (send_to_logz_io, src/main2.py lines 231-259) ------------

/-- Outcome of one HTTP POST to the ingestion endpoint: a response with a
status and an optional numeric Retry-After header, or a network/timeout
error raised by the client. -/
inductive ShipOutcome where
  | resp (status : Nat) (retryAfter : Option ℚ)
  | netErr
deriving DecidableEq

/-- The remote ingestion endpoint, as a function of the posted batch and the
current attempt counter (the attempt counter equals the number of prior
retries of this batch at this recursion level). -/
def ShipServer := List Event → Nat → ShipOutcome

/-- Observable actions of send_to_logz_io: one HTTP POST of a batch at a given
attempt counter, or one backoff sleep of a given duration. -/
inductive SAction where
  | post (batch : List Event) (attempt : Nat)
  | sleep (d : ℚ)
deriving DecidableEq

/-- Signal produced by one run of the inner while-True loop of
send_to_logz_io: success, a raised delivery error, or a 413 split request. -/
inductive LoopRes where
  | okR
  | errR
  | splitR
deriving DecidableEq

/-- The while-True retry loop of send_to_logz_io (src/main2.py lines 237-259),
one recursion level (fixed batch).  Fuel starts at MAX_RETRIES + 1 and is
strictly larger than the retries still allowed, so the fuel-0 branch is
unreachable.  Note that r.raise_for_status() on a non-retryable status >= 400
raises aiohttp.ClientResponseError, a subclass of aiohttp.ClientError, so it
is caught by the generic except branch (line 255) and retried with
backoff(attempt, None) like a network error; statuses below 400 do not raise
and the function returns. -/
def shipLoop (srv : ShipServer) (rand : Nat → ℚ) (events : List Event) :
    Nat → Nat → LoopRes × List SAction
  | _, 0 => (LoopRes.errR, [])
  | attempt, fuel + 1 =>
    match srv events attempt with
    | ShipOutcome.resp status retryAfter =>
      if status = 413 ∧ 1 < events.length then
        (LoopRes.splitR, [SAction.post events attempt])
      else if status ∈ retryableStatuses then
        if MAX_RETRIES ≤ attempt then (LoopRes.errR, [SAction.post events attempt])
        else
          let rest := shipLoop srv rand events (attempt + 1) fuel
          (rest.1, SAction.post events attempt ::
            SAction.sleep (backoff attempt retryAfter (rand attempt)) :: rest.2)
      else if 400 ≤ status then
        if MAX_RETRIES ≤ attempt then (LoopRes.errR, [SAction.post events attempt])
        else
          let rest := shipLoop srv rand events (attempt + 1) fuel
          (rest.1, SAction.post events attempt ::
            SAction.sleep (backoff attempt none (rand attempt)) :: rest.2)
      else (LoopRes.okR, [SAction.post events attempt])
    | ShipOutcome.netErr =>
      if MAX_RETRIES ≤ attempt then (LoopRes.errR, [SAction.post events attempt])
      else
        let rest := shipLoop srv rand events (attempt + 1) fuel
        (rest.1, SAction.post events attempt ::
          SAction.sleep (backoff attempt none (rand attempt)) :: rest.2)

/-- Delivery result of send_to_logz_io: normal return or a raised delivery
error. -/
inductive ShipResult where
  | ok
  | err
deriving DecidableEq

/-- send_to_logz_io (src/main2.py lines 231-259): no-op on an empty batch;
otherwise run the retry loop; on a 413 response for a batch of more than one
event, split at the midpoint and recursively ship each half (the second half
only if the first succeeded, since an exception from the first recursive call
propagates). -/
def ship (srv : ShipServer) (rand : Nat → ℚ) (events : List Event) :
    ShipResult × List SAction :=
  if events.isEmpty then (ShipResult.ok, [])
  else
    match shipLoop srv rand events 0 (MAX_RETRIES + 1) with
    | (LoopRes.okR, tr) => (ShipResult.ok, tr)
    | (LoopRes.errR, tr) => (ShipResult.err, tr)
    | (LoopRes.splitR, tr) =>
      if _h : 1 < events.length then
        let mid := events.length / 2
        let first := ship srv rand (events.take mid)
        match first.1 with
        | ShipResult.err => (ShipResult.err, tr ++ first.2)
        | ShipResult.ok =>
          let second := ship srv rand (events.drop mid)
          (second.1, tr ++ first.2 ++ second.2)
      else (ShipResult.err, tr)
termination_by events.length
decreasing_by
  · simpa [List.length_take] using by omega
  · simpa [List.length_drop] using by omega

/-- True exactly on sleep actions. -/
def isSleep : SAction → Bool
  | SAction.sleep _ => true
  | SAction.post _ _ => false

/-- True exactly on post actions. -/
def isPost : SAction → Bool
  | SAction.sleep _ => false
  | SAction.post _ _ => true

-- ------------ Claim C7 ------------

/-- C7: for every non-negative attempt number and every present server hint,
backoff(attempt, hint) returns the hint verbatim, independent of the attempt
number and of the random source. -/
theorem C7_backoff_returns_hint_verbatim (attempt : Nat) (hint : ℚ) (rand : ℚ) :
    backoff attempt (some hint) rand = hint := rfl

-- ------------ Claim C1 ------------

/-- Ingestion endpoint that answers 413 (no Retry-After) to any batch of more
than two events and 200 to smaller batches. -/
def splitServer : ShipServer := fun batch _ =>
  if 2 < batch.length then ShipOutcome.resp 413 none else ShipOutcome.resp 200 none

/-- C1: when the endpoint responds 413 to a batch of more than one event, ship
splits the batch at the midpoint and recursively ships each half; for a batch
of 4 events where the whole batch receives 413 and each half of size 2
receives 200, ship succeeds after exactly one split into two sub-batches of
size 2 (trace: the full post, then one post per half, no sleeps). -/
theorem C1_ship_splits_413_batch (a b c d : Event) (rand : Nat → ℚ) :
    ship splitServer rand [a, b, c, d] =
      (ShipResult.ok,
        [SAction.post [a, b, c, d] 0, SAction.post [a, b] 0, SAction.post [c, d] 0]) := by
  rw [ship]
  simp [shipLoop, splitServer, ship, retryableStatuses]

-- ------------ Claim C2 ------------

/-- Ingestion endpoint that always answers with a fixed status and no
Retry-After header. -/
def constServer (status : Nat) : ShipServer := fun _ _ => ShipOutcome.resp status none

/-- A deterministic stand-in for the random source (random.random() = 0). -/
def zeroRand : Nat → ℚ := fun _ => 0

/-- A sample normalized event. -/
def evA : Event :=
  { city := some "Berlin", temperature_celsius := none,
    description := some "Sunny", source_provider := "open_weather" }

/-- The retry loop raises only after exhausting its retries whenever every
response carries a status that is at least 400 and does not trigger a split:
fuel posts are issued and fuel - 1 backoff sleeps are performed.  This covers
both the retryable statuses and the non-retryable ones, because
r.raise_for_status() raises a ClientError subclass that the generic except
branch catches and retries. -/
theorem shipLoop_err_of_ge400 (srv : ShipServer) (rand : Nat → ℚ) (events : List Event)
    (st : Nat) (ra : Nat → Option ℚ)
    (hsrv : ∀ a, srv events a = ShipOutcome.resp st (ra a))
    (h400 : 400 ≤ st) (hnosplit : ¬(st = 413 ∧ 1 < events.length)) :
    ∀ fuel attempt, 1 ≤ fuel → MAX_RETRIES + 1 = attempt + fuel →
      (shipLoop srv rand events attempt fuel).1 = LoopRes.errR ∧
      (shipLoop srv rand events attempt fuel).2.countP (fun x => isPost x) = fuel ∧
      (shipLoop srv rand events attempt fuel).2.countP (fun x => isSleep x) = fuel - 1 := by
  intro fuel
  induction fuel with
  | zero => intro attempt h1 _; omega
  | succ n ih =>
    intro attempt _ hsum
    rw [shipLoop]
    rw [hsrv attempt]
    simp only [hnosplit, if_false]
    by_cases hn : n = 0
    · subst hn
      have ha : MAX_RETRIES ≤ attempt := by
        simp [MAX_RETRIES] at hsum ⊢; omega
      by_cases hr : st ∈ retryableStatuses
      · simp [hr, ha, isPost, isSleep]
      · simp [hr, h400, ha, isPost, isSleep]
    · have ha : ¬ MAX_RETRIES ≤ attempt := by
        simp only [MAX_RETRIES] at hsum ⊢; omega
      have hrec := ih (attempt + 1) (by omega) (by omega)
      rcases hsl : shipLoop srv rand events (attempt + 1) n with ⟨res, tr⟩
      rw [hsl] at hrec
      obtain ⟨hres, hp, hs⟩ := hrec
      simp only at hres hp hs
      subst hres
      by_cases hr : st ∈ retryableStatuses
      · simp only [hr, if_true, ha, if_false, hsl]
        refine ⟨by trivial, ?_, ?_⟩
        · rw [List.countP_cons, List.countP_cons, hp]
          simp [isPost]
          try omega
        · rw [List.countP_cons, List.countP_cons, hs]
          simp [isSleep]
          try omega
      · simp only [hr, if_false, h400, if_true, ha, hsl]
        refine ⟨by trivial, ?_, ?_⟩
        · rw [List.countP_cons, List.countP_cons, hp]
          simp [isPost]
          try omega
        · rw [List.countP_cons, List.countP_cons, hs]
          simp [isSleep]
          try omega

/-- C2 counterexample: the claim fails on the code.  With every response 404
(not 2xx, not 413, not in the retryable set), ship of a one-event batch does
not raise immediately: it performs five backoff sleeps and six posts before
raising, because r.raise_for_status() raises a ClientError subclass that the
generic network-error except branch catches and retries.  And with every
response 304 (non-2xx but below 400), ship raises nothing at all: it returns
success after a single post. -/
theorem C2_counterexample_404_retried_304_ok :
    (ship (constServer 404) zeroRand [evA]).1 = ShipResult.err ∧
    (ship (constServer 404) zeroRand [evA]).2.countP (fun x => isSleep x) = 5 ∧
    (ship (constServer 404) zeroRand [evA]).2.countP (fun x => isPost x) = 6 ∧
    ship (constServer 304) zeroRand [evA] = (ShipResult.ok, [SAction.post [evA] 0]) := by
  refine ⟨?_, ?_, ?_, ?_⟩ <;>
    · rw [ship]
      simp [shipLoop, constServer, retryableStatuses, MAX_RETRIES, isPost, isSleep]

/-- C2 amended: for every response status that is at least 400, is not
413-with-splittable-batch and is not in the retryable set, ship does NOT
raise immediately: the error raised by raise_for_status is caught by the
network-error handler, so the batch is retried with backoff like a network
error — MAX_RETRIES + 1 posts and MAX_RETRIES backoff sleeps — and only then
is the delivery error raised; a non-2xx status below 400 (1xx/3xx) is
treated as success after a single post. -/
theorem C2_amended_nonretryable_retried_then_raised (st : Nat)
    (ra : List Event → Nat → Option ℚ) (rand : Nat → ℚ) (events : List Event)
    (hne : events ≠ []) (h400 : 400 ≤ st) (hnr : st ∉ retryableStatuses)
    (h413 : st ≠ 413) :
    (ship (fun b a => ShipOutcome.resp st (ra b a)) rand events).1 = ShipResult.err ∧
    (ship (fun b a => ShipOutcome.resp st (ra b a)) rand events).2.countP
      (fun x => isPost x) = MAX_RETRIES + 1 ∧
    (ship (fun b a => ShipOutcome.resp st (ra b a)) rand events).2.countP
      (fun x => isSleep x) = MAX_RETRIES ∧
    (∀ st2, st2 < 400 →
      ship (fun b a => ShipOutcome.resp st2 (ra b a)) rand events =
        (ShipResult.ok, [SAction.post events 0])) := by
  have hloop := shipLoop_err_of_ge400 (fun b a => ShipOutcome.resp st (ra b a)) rand events
    st (fun a => ra events a) (fun _ => rfl) h400 (by simp [h413])
    (MAX_RETRIES + 1) 0 (by omega) (by omega)
  have hemp : events.isEmpty = false := by
    cases events with
    | nil => exact absurd rfl hne
    | cons x xs => rfl
  refine ⟨?_, ?_, ?_, ?_⟩
  · rw [ship]
    rcases hsl : shipLoop (fun b a => ShipOutcome.resp st (ra b a)) rand events 0
      (MAX_RETRIES + 1) with ⟨res, tr⟩
    rw [hsl] at hloop
    rcases hloop with ⟨h1, _, _⟩
    simp at h1
    subst h1
    simp [hemp]
  · rw [ship]
    rcases hsl : shipLoop (fun b a => ShipOutcome.resp st (ra b a)) rand events 0
      (MAX_RETRIES + 1) with ⟨res, tr⟩
    rw [hsl] at hloop
    rcases hloop with ⟨h1, h2, _⟩
    simp at h1 h2
    subst h1
    simp [hemp, h2]
  · rw [ship]
    rcases hsl : shipLoop (fun b a => ShipOutcome.resp st (ra b a)) rand events 0
      (MAX_RETRIES + 1) with ⟨res, tr⟩
    rw [hsl] at hloop
    rcases hloop with ⟨h1, _, h3⟩
    simp at h1 h3
    subst h1
    simp [hemp, h3]
  · intro st2 hlt
    have hnr2 : st2 ∉ retryableStatuses := by
      simp [retryableStatuses]; omega
    rw [ship]
    rw [shipLoop]
    have h4 : ¬ (400 ≤ st2) := by omega
    have h5 : ¬ (st2 = 413 ∧ 1 < events.length) := by
      rintro ⟨he, _⟩; omega
    simp [h5, hnr2, h4, hemp]

-- ------------ Provider fetch (src/main2.py lines 117-212) ------------

/-- Outcome of one HTTP GET for a key: a response with status, optional
numeric Retry-After header and parsed JSON body, or a network/timeout
error. -/
inductive FetchOutcome (α : Type) where
  | resp (status : Nat) (retryAfter : Option ℚ) (body : α)
  | netErr

/-- Observable actions of a per-key fetch: one HTTP request at a given attempt
counter, or one backoff sleep. -/
inductive FAction where
  | request (attempt : Nat)
  | sleep (d : ℚ)
deriving DecidableEq

/-- Number of requests in a fetch trace. -/
def countReq : List FAction → Nat
  | [] => 0
  | FAction.request _ :: t => countReq t + 1
  | FAction.sleep _ :: t => countReq t

/-- Number of backoff sleeps in a fetch trace. -/
def countFSleep : List FAction → Nat
  | [] => 0
  | FAction.request _ :: t => countFSleep t
  | FAction.sleep _ :: t => countFSleep t + 1

/-- The per-key while-True retry loop shared by OpenWeatherSource._fetch_one
(src/main2.py lines 137-157) and WeatherApiSource._fetch_one (lines 187-207):
the i-th loop iteration's response is srv i (the attempt counter equals the
iteration index).  On a retryable status the loop sleeps per backoff with the
Retry-After hint and retries; r.raise_for_status() on any other status at
least 400 raises a ClientError subclass caught by the generic except branch,
which retries with backoff(attempt, None); on a status below 400 the body is
parsed and normalized.  Fuel starts at MAX_RETRIES + 1, strictly more than
the retries still allowed, so the fuel-0 branch is unreachable. -/
def fetchLoop {α : Type} (normalize : α → Event) (srv : Nat → FetchOutcome α)
    (rand : Nat → ℚ) : Nat → Nat → Option Event × List FAction
  | _, 0 => (none, [])
  | attempt, fuel + 1 =>
    match srv attempt with
    | FetchOutcome.resp status retryAfter body =>
      if status ∈ retryableStatuses then
        if MAX_RETRIES ≤ attempt then (none, [FAction.request attempt])
        else
          let rest := fetchLoop normalize srv rand (attempt + 1) fuel
          (rest.1, FAction.request attempt ::
            FAction.sleep (backoff attempt retryAfter (rand attempt)) :: rest.2)
      else if 400 ≤ status then
        if MAX_RETRIES ≤ attempt then (none, [FAction.request attempt])
        else
          let rest := fetchLoop normalize srv rand (attempt + 1) fuel
          (rest.1, FAction.request attempt ::
            FAction.sleep (backoff attempt none (rand attempt)) :: rest.2)
      else (some (normalize body), [FAction.request attempt])
    | FetchOutcome.netErr =>
      if MAX_RETRIES ≤ attempt then (none, [FAction.request attempt])
      else
        let rest := fetchLoop normalize srv rand (attempt + 1) fuel
        (rest.1, FAction.request attempt ::
          FAction.sleep (backoff attempt none (rand attempt)) :: rest.2)

/-- _fetch_one (src/main2.py lines 132-157 / 182-207): an empty API key
returns None before issuing any request; otherwise the retry loop runs
starting at attempt 0. -/
def fetchOne {α : Type} (normalize : α → Event) (apiKey : String)
    (srv : Nat → FetchOutcome α) (rand : Nat → ℚ) : Option Event × List FAction :=
  if apiKey = "" then (none, [])
  else fetchLoop normalize srv rand 0 (MAX_RETRIES + 1)

/-- fetch_many (src/main2.py lines 159-162 / 209-212): one _fetch_one task per
requested city, gather waits for all of them, and the None results are
filtered out of the returned list.  srvs gives each city's response
function. -/
def fetch_many {α : Type} (normalize : α → Event) (apiKey : String)
    (srvs : String → Nat → FetchOutcome α) (rand : Nat → ℚ)
    (cities : List String) : List Event :=
  cities.filterMap (fun c => (fetchOne normalize apiKey (srvs c) rand).1)

/-- poll_once (src/main2.py lines 263-271): run every source's fetch_many on
the configured city list and concatenate the returned lists in source
order. -/
def poll_once (cities : List String) (sources : List (List String → List Event)) :
    List Event :=
  (sources.map (fun fm => fm cities)).flatten

-- ------------ main.py delivery loop (src/main.py lines 68-93) ------------

/-- Outcome of one POST in src/main.py's send_to_logz_io: success (2xx), an
HTTP error response carrying a status and optional Retry-After header, or a
network error with no response attached. -/
inductive V1Out where
  | ok
  | httpErr (status : Nat) (retryAfter : Option ℚ)
  | netErr
deriving DecidableEq

/-- The while-True loop of send_to_logz_io in src/main.py (lines 77-93), run
for at most fuel iterations: some (some ()) means the loop returned, some
none means it raised, and none means the loop is still running after fuel
iterations.  The loop retries exactly when the caught exception carries a
response with status 429 (sleeping only when a Retry-After header is
present); the counter i is incremented but never compared with MAX_RETRIES,
so nothing bounds the number of retries. -/
def v1ShipSteps (srv : Nat → V1Out) : Nat → Nat → Option (Option Unit)
  | 0, _ => none
  | fuel + 1, i =>
    match srv i with
    | V1Out.ok => some (some ())
    | V1Out.httpErr status _ =>
      if status = 429 then v1ShipSteps srv fuel (i + 1)
      else some none
    | V1Out.netErr => some none

-- ------------ Claim C10 ------------

/-- C10: a provider source constructed with an empty API key fetches nothing:
for every response function and every city list, fetch_many returns the empty
list, and each per-key fetch returns no event and performs no action at all
(in particular it issues no network request). -/
theorem C10_empty_key_fetch_many_empty {α : Type} (normalize : α → Event)
    (srvs : String → Nat → FetchOutcome α) (rand : Nat → ℚ) (cities : List String) :
    fetch_many normalize "" srvs rand cities = [] ∧
    ∀ c, fetchOne normalize "" (srvs c) rand = (none, []) := by
  constructor
  · simp [fetch_many, fetchOne]
  · intro c
    simp [fetchOne]

-- ------------ Claim C3 ------------

/-- The per-key retry loop issues at most fuel requests. -/
theorem fetchLoop_countReq_le {α : Type} (normalize : α → Event)
    (srv : Nat → FetchOutcome α) (rand : Nat → ℚ) :
    ∀ fuel attempt, countReq (fetchLoop normalize srv rand attempt fuel).2 ≤ fuel := by
  intro fuel
  induction fuel with
  | zero => intro attempt; simp [fetchLoop, countReq]
  | succ n ih =>
    intro attempt
    rw [fetchLoop]
    rcases h : srv attempt with ⟨st, ra, body⟩ | _
    · simp only [h]
      split_ifs with h1 h2 h3 h4
      · simp [countReq]
      · simp only [countReq]
        have := ih (attempt + 1)
        omega
      · simp [countReq]
      · simp only [countReq]
        have := ih (attempt + 1)
        omega
      · simp [countReq]
    · simp only [h]
      split_ifs with h1
      · simp [countReq]
      · simp only [countReq]
        have := ih (attempt + 1)
        omega

/-- When every response carries a fixed status of at least 400 (retryable or
not), the per-key retry loop exhausts its fuel: no event, fuel requests,
fuel - 1 sleeps. -/
theorem fetchLoop_exhausts_of_ge400 {α : Type} (normalize : α → Event)
    (srv : Nat → FetchOutcome α) (rand : Nat → ℚ) (st : Nat) (ra : Nat → Option ℚ)
    (body : Nat → α) (hsrv : ∀ a, srv a = FetchOutcome.resp st (ra a) (body a))
    (h400 : 400 ≤ st) :
    ∀ fuel attempt, 1 ≤ fuel → MAX_RETRIES + 1 = attempt + fuel →
      (fetchLoop normalize srv rand attempt fuel).1 = none ∧
      countReq (fetchLoop normalize srv rand attempt fuel).2 = fuel ∧
      countFSleep (fetchLoop normalize srv rand attempt fuel).2 = fuel - 1 := by
  intro fuel
  induction fuel with
  | zero => intro attempt h1 _; omega
  | succ n ih =>
    intro attempt _ hsum
    rw [fetchLoop]
    rw [hsrv attempt]
    by_cases hn : n = 0
    · subst hn
      have ha : MAX_RETRIES ≤ attempt := by
        simp only [MAX_RETRIES] at hsum ⊢; omega
      by_cases hr : st ∈ retryableStatuses
      · simp [hr, ha, countReq, countFSleep]
      · simp [hr, h400, ha, countReq, countFSleep]
    · have ha : ¬ MAX_RETRIES ≤ attempt := by
        simp only [MAX_RETRIES] at hsum ⊢; omega
      have hrec := ih (attempt + 1) (by omega) (by omega)
      rcases hsl : fetchLoop normalize srv rand (attempt + 1) n with ⟨res, tr⟩
      rw [hsl] at hrec
      obtain ⟨hres, hp, hs⟩ := hrec
      simp only at hres hp hs
      subst hres
      by_cases hr : st ∈ retryableStatuses
      · simp only [hr, if_true, ha, if_false, hsl]
        refine ⟨by trivial, ?_, ?_⟩
        · simp only [countReq, countFSleep, hp]
        · simp only [countReq, countFSleep, hs]
          omega
      · simp only [hr, if_false, h400, if_true, ha, hsl]
        refine ⟨by trivial, ?_, ?_⟩
        · simp only [countReq, countFSleep, hp]
        · simp only [countReq, countFSleep, hs]
          omega

/-- Under persistent 429 the while-True loop of src/main.py's send_to_logz_io
is still running after any finite number of iterations. -/
theorem v1ShipSteps_never_done (ra : Nat → Option ℚ) :
    ∀ fuel i, v1ShipSteps (fun k => V1Out.httpErr 429 (ra k)) fuel i = none := by
  intro fuel
  induction fuel with
  | zero => intro i; rfl
  | succ n ih =>
    intro i
    rw [v1ShipSteps]
    simp [ih]

/-- C3: bounded retries hold for the loops of src/main2.py but fail for
src/main.py, whose MAX_RETRIES constant is declared and never consulted.
(i) The per-key provider fetch loop issues at most MAX_RETRIES + 1 requests
for any API key and any response function.  (ii) Under persistent 429 with
Retry-After 1 the per-key fetch of src/main2.py is exhausted: it yields no
event after MAX_RETRIES + 1 requests.  (iii) Under the same persistent 429
the delivery loop of src/main2.py posts MAX_RETRIES + 1 times and raises a
delivery error.  (iv) The delivery loop of src/main.py (lines 77-93) retries
forever under persistent 429 with Retry-After 1: it is still running after
any number of iterations, contradicting the claimed bound. -/
theorem C3_retry_bounds_main2_bounded_main_py_unbounded {α : Type}
    (normalize : α → Event) (apiKey : String) (srv : Nat → FetchOutcome α)
    (rand : Nat → ℚ) (body : Nat → α) (a : Event) (events : List Event) :
    countReq (fetchOne normalize apiKey srv rand).2 ≤ MAX_RETRIES + 1 ∧
    ((fetchOne normalize "k" (fun k => FetchOutcome.resp 429 (some 1) (body k)) rand).1
        = none ∧
      countReq (fetchOne normalize "k"
        (fun k => FetchOutcome.resp 429 (some 1) (body k)) rand).2 = MAX_RETRIES + 1) ∧
    ((ship (fun _ _ => ShipOutcome.resp 429 (some 1)) rand (a :: events)).1
        = ShipResult.err ∧
      (ship (fun _ _ => ShipOutcome.resp 429 (some 1)) rand (a :: events)).2.countP
        (fun x => isPost x) = MAX_RETRIES + 1) ∧
    (∀ fuel i, v1ShipSteps (fun _ => V1Out.httpErr 429 (some 1)) fuel i = none) := by
  refine ⟨?_, ?_, ?_, ?_⟩
  · by_cases hk : apiKey = ""
    · simp [fetchOne, hk, countReq]
    · simp only [fetchOne, hk, if_false]
      exact fetchLoop_countReq_le normalize srv rand (MAX_RETRIES + 1) 0
  · have h := fetchLoop_exhausts_of_ge400 normalize
      (fun k => FetchOutcome.resp 429 (some 1) (body k)) rand 429 (fun _ => some 1) body
      (fun _ => rfl) (by omega) (MAX_RETRIES + 1) 0 (by omega) (by omega)
    have hk : ("k" : String) = "" ↔ False := by simp
    constructor
    · simp only [fetchOne, hk, if_false, iff_false]
      exact h.1
    · simp only [fetchOne, hk, if_false, iff_false]
      exact h.2.1
  · have hloop := shipLoop_err_of_ge400 (fun _ _ => ShipOutcome.resp 429 (some 1)) rand
      (a :: events) 429 (fun _ => some 1) (fun _ => rfl) (by omega)
      (by rintro ⟨he, _⟩; omega) (MAX_RETRIES + 1) 0 (by omega) (by omega)
    rcases hsl : shipLoop (fun _ _ => ShipOutcome.resp 429 (some 1)) rand (a :: events) 0
      (MAX_RETRIES + 1) with ⟨res, tr⟩
    rw [hsl] at hloop
    rcases hloop with ⟨h1, h2, _⟩
    simp only at h1 h2
    subst h1
    rw [ship]
    simp [hsl, h2]
  · exact v1ShipSteps_never_done (fun _ => some 1)

-- ------------ Claim C4 ------------

/-- C4: failure isolation of aggregation.  (i) If every source in the list
yields no event for every configured city (every per-key fetch fails or is
exhausted), poll_once returns the empty list rather than an error.  (ii) One
key's exhaustion never aborts the others: every city whose fetch succeeds
contributes its event to fetch_many's result, whatever the responses of
every other city are; fetch_many waits on all per-key fetches and returns
exactly the successful results, in city order. -/
theorem C4_poll_once_empty_and_key_isolation {α : Type} (normalize : α → Event) :
    (∀ (srvss : List (String → Nat → FetchOutcome α)) (apiKey : String)
        (rand : Nat → ℚ) (cities : List String),
      (∀ s ∈ srvss, ∀ c ∈ cities, (fetchOne normalize apiKey (s c) rand).1 = none) →
      poll_once cities (srvss.map (fun s => fetch_many normalize apiKey s rand)) = []) ∧
    (∀ (srvs : String → Nat → FetchOutcome α) (apiKey : String) (rand : Nat → ℚ)
        (cities : List String) (c : String) (e : Event),
      c ∈ cities → (fetchOne normalize apiKey (srvs c) rand).1 = some e →
      e ∈ fetch_many normalize apiKey srvs rand cities) := by
  constructor
  · intro srvss apiKey rand cities hall
    simp only [poll_once, List.flatten_eq_nil_iff, List.mem_map]
    rintro l ⟨fm, ⟨s, hs, rfl⟩, rfl⟩
    simp only [fetch_many, List.filterMap_eq_nil_iff]
    intro c hc
    exact hall s hs c hc
  · intro srvs apiKey rand cities c e hc he
    simp only [fetch_many, List.mem_filterMap]
    exact ⟨c, hc, he⟩

/-- Witness for the amended C2 at status 404, a one-event batch and a zero
random source. -/
theorem C2_amended_witness :
    (ship (fun _ _ => ShipOutcome.resp 404 none) zeroRand [evA]).1 = ShipResult.err :=
  (C2_amended_nonretryable_retried_then_raised 404 (fun _ _ => none) zeroRand [evA]
    (by decide) (by decide) (by decide) (by decide)).1

/-- Witness for C4: one all-failing source polls to the empty list, and a
succeeding key contributes its event while its sibling key fails. -/
theorem C4_witness :
    poll_once ["x"]
      (([fun _ _ => FetchOutcome.netErr] : List (String → Nat → FetchOutcome Unit)).map
        (fun s => fetch_many (fun _ => evA) "k" s zeroRand)) = [] ∧
    evA ∈ fetch_many (fun _ => evA) "k"
      (fun c => if c = "x" then (fun _ => FetchOutcome.resp 200 none ())
        else (fun _ => FetchOutcome.netErr)) zeroRand ["y", "x"] :=
  ⟨(C4_poll_once_empty_and_key_isolation (fun _ => evA)).1
      [fun _ _ => FetchOutcome.netErr] "k" zeroRand ["x"] (by decide),
   (C4_poll_once_empty_and_key_isolation (fun _ => evA)).2
      (fun c => if c = "x" then (fun _ => FetchOutcome.resp 200 none ())
        else (fun _ => FetchOutcome.netErr)) "k" zeroRand ["y", "x"] "x" evA
      (by decide) (by decide)⟩

-- ------------ Source registry (build_sources, src/main2.py lines 216-227) ------------

/-- The configuration fields consulted by build_sources (src/main2.py lines
14-25): provider keys and CSV path as loaded from the environment (absent
variables are None), and the configured source kinds in order. -/
structure Config where
  open_weather_api_key : Option String
  weather_api_key : Option String
  csv_file : Option String
  source_types : List String
deriving DecidableEq

/-- The constructed sources, as tagged variants recording the constructor
arguments (src/main2.py lines 92-96, 119-122, 167-170). -/
inductive SourceK where
  | csv (path : String)
  | openWeather (apiKey : String)
  | weatherApi (apiKey : String)
deriving DecidableEq

/-- The per-kind branch of the loop in build_sources (src/main2.py lines
219-226): FILE is added only when cfg.csv_file is truthy (present and
nonempty); OPEN_WEATHER and WEATHER_API are always added, the missing key
defaulted to the empty string (key or ""); any other kind is ignored. -/
def buildKind (cfg : Config) (kind : String) : Option SourceK :=
  if kind = "FILE" then
    match cfg.csv_file with
    | some p => if p = "" then none else some (SourceK.csv p)
    | none => none
  else if kind = "OPEN_WEATHER" then
    some (SourceK.openWeather (cfg.open_weather_api_key.getD ""))
  else if kind = "WEATHER_API" then
    some (SourceK.weatherApi (cfg.weather_api_key.getD ""))
  else none

/-- build_sources (src/main2.py lines 216-227): one pass over the configured
kinds in order, appending the constructed source of each kind that yields
one. -/
def build_sources (cfg : Config) : List SourceK :=
  cfg.source_types.filterMap (buildKind cfg)

/-- A configuration enabling only OPEN_WEATHER, with no OpenWeather key. -/
def cfgNoKey : Config :=
  { open_weather_api_key := none, weather_api_key := none, csv_file := none,
    source_types := ["OPEN_WEATHER"] }

/-- C8 counterexample: the claim fails on the code.  With OPEN_WEATHER
configured and its API key absent, build_sources does not omit the kind: it
returns an OpenWeatherSource constructed with the empty string as its key,
refuting the claimed "construct if and only if the credential is present"
equivalence (only FILE is gated on its path). -/
theorem C8_counterexample_provider_built_without_key :
    cfgNoKey.open_weather_api_key = none ∧
    build_sources cfgNoKey = [SourceK.openWeather ""] := by
  constructor
  · rfl
  · decide

/-- C8 amended: build(config) never fails at startup and follows the
configured kind order (it distributes over concatenation of the kind list);
the FILE kind is constructed exactly when its path is present and nonempty,
and silently omitted otherwise; the provider kinds OPEN_WEATHER and
WEATHER_API are constructed unconditionally, an absent credential being
defaulted to the empty string (a keyless provider is inactive at fetch time,
not omitted at build time); unknown kinds are ignored. -/
theorem C8_amended_registry (cfg : Config) :
    (∀ l1 l2, build_sources
        { open_weather_api_key := cfg.open_weather_api_key,
          weather_api_key := cfg.weather_api_key,
          csv_file := cfg.csv_file, source_types := l1 ++ l2 } =
      build_sources
        { open_weather_api_key := cfg.open_weather_api_key,
          weather_api_key := cfg.weather_api_key,
          csv_file := cfg.csv_file, source_types := l1 } ++
      build_sources
        { open_weather_api_key := cfg.open_weather_api_key,
          weather_api_key := cfg.weather_api_key,
          csv_file := cfg.csv_file, source_types := l2 }) ∧
    (∀ p, SourceK.csv p ∈ build_sources cfg ↔
      "FILE" ∈ cfg.source_types ∧ cfg.csv_file = some p ∧ p ≠ "") ∧
    ("OPEN_WEATHER" ∈ cfg.source_types →
      SourceK.openWeather (cfg.open_weather_api_key.getD "") ∈ build_sources cfg) ∧
    ("WEATHER_API" ∈ cfg.source_types →
      SourceK.weatherApi (cfg.weather_api_key.getD "") ∈ build_sources cfg) ∧
    (∀ kind, kind ≠ "FILE" → kind ≠ "OPEN_WEATHER" → kind ≠ "WEATHER_API" →
      buildKind cfg kind = none) := by
  refine ⟨?_, ?_, ?_, ?_, ?_⟩
  · intro l1 l2
    simp only [build_sources, List.filterMap_append]
    rfl
  · intro p
    constructor
    · intro hmem
      rcases List.mem_filterMap.mp hmem with ⟨kind, hk, hbk⟩
      by_cases h1 : kind = "FILE"
      · subst h1
        simp only [buildKind, if_true] at hbk
        rcases hcf : cfg.csv_file with _ | p2
        · rw [hcf] at hbk; cases hbk
        · rw [hcf] at hbk
          by_cases hp : p2 = ""
          · simp [hp] at hbk
          · simp only [hp, if_neg, if_false] at hbk
            have : p2 = p := by
              cases hbk; rfl
            subst this
            exact ⟨hk, rfl, hp⟩
      · exfalso
        simp only [buildKind, h1, if_false] at hbk
        by_cases h2 : kind = "OPEN_WEATHER"
        · simp [h2] at hbk
        · simp only [h2, if_false] at hbk
          by_cases h3 : kind = "WEATHER_API"
          · simp [h3] at hbk
          · simp [h3] at hbk
    · rintro ⟨hmem, hcsv, hp⟩
      refine List.mem_filterMap.mpr ⟨"FILE", hmem, ?_⟩
      simp [buildKind, hcsv, hp]
  · intro hmem
    refine List.mem_filterMap.mpr ⟨"OPEN_WEATHER", hmem, ?_⟩
    simp [buildKind]
  · intro hmem
    refine List.mem_filterMap.mpr ⟨"WEATHER_API", hmem, ?_⟩
    simp [buildKind]
  · intro kind h1 h2 h3
    simp [buildKind, h1, h2, h3]

/-- A configuration with all three kinds plus an unknown one, a CSV path
present and only the WeatherAPI key present. -/
def cfgMixed : Config :=
  { open_weather_api_key := none, weather_api_key := some "w",
    csv_file := some "weather.csv",
    source_types := ["FILE", "OPEN_WEATHER", "WEATHER_API", "BOGUS"] }

/-- Witness for the amended C8 at a concrete mixed configuration. -/
theorem C8_amended_witness :
    SourceK.csv "weather.csv" ∈ build_sources cfgMixed ∧
    SourceK.openWeather "" ∈ build_sources cfgMixed ∧
    SourceK.weatherApi "w" ∈ build_sources cfgMixed :=
  ⟨((C8_amended_registry cfgMixed).2.1 "weather.csv").mpr
      ⟨by decide, rfl, by decide⟩,
   (C8_amended_registry cfgMixed).2.2.1 (by decide),
   (C8_amended_registry cfgMixed).2.2.2.1 (by decide)⟩

-- ------------ Normalization (src/main2.py lines 92-130, 172-180; src/main.py 47-61, 133-147) ------------

/-- The "main" object of an OpenWeather response body. -/
structure RawMain where
  temp : Option JNum
deriving DecidableEq

/-- One element of the "weather" array of an OpenWeather response body. -/
structure RawWeatherItem where
  description : Option String
deriving DecidableEq

/-- An OpenWeather response body.  An absent key and an explicit null are both
modelled as none (the or-default guards of main2.py make the two cases
behave identically there). -/
structure RawOW where
  name : Option String
  main : Option RawMain
  weather : Option (List RawWeatherItem)
deriving DecidableEq

/-- The "condition" object of a WeatherAPI response body. -/
structure RawCondition where
  text : Option String
deriving DecidableEq

/-- The "current" object of a WeatherAPI response body. -/
structure RawCurrent where
  temp_c : Option JNum
  condition : Option RawCondition
deriving DecidableEq

/-- The "location" object of a WeatherAPI response body. -/
structure RawLocation where
  name : Option String
deriving DecidableEq

/-- A WeatherAPI response body. -/
structure RawWA where
  location : Option RawLocation
  current : Option RawCurrent
deriving DecidableEq

/-- OpenWeatherSource._normalize (src/main2.py lines 124-130): every lookup
defaults to null; a missing or empty weather array contributes a default
item, so a fully empty record yields all-null fields. -/
def owNormalize (raw : RawOW) : Event :=
  { city := raw.name
    temperature_celsius := (raw.main.getD { temp := none }).temp
    description :=
      (match raw.weather with
        | none => ({ description := none } : RawWeatherItem)
        | some [] => ({ description := none } : RawWeatherItem)
        | some (w :: _) => w).description
    source_provider := "open_weather" }

/-- WeatherApiSource._normalize (src/main2.py lines 172-180): cur and cond
default to empty objects when absent. -/
def waNormalize (raw : RawWA) : Event :=
  { city := (raw.location.getD { name := none }).name
    temperature_celsius := (raw.current.getD { temp_c := none, condition := none }).temp_c
    description :=
      (((raw.current.getD { temp_c := none, condition := none }).condition).getD
        { text := none }).text
    source_provider := "weather_api" }

/-- One row of the CSV file as csv.DictReader returns it: any column may be
absent. -/
structure CsvRow where
  city : Option String
  temperature : Option String
  description : Option String
deriving DecidableEq

/-- Python str.strip with a double-quote argument: remove every leading and
trailing double-quote character. -/
def stripQuotes (s : String) : String :=
  String.mk (((s.data.dropWhile (fun c => c = '"')).reverse.dropWhile
    (fun c => c = '"')).reverse)

/-- The row normalization inside CsvSource.fetch_many (src/main2.py lines
106-112): a falsy (absent or empty) temperature string yields null, otherwise
the string is parsed as a float — parseF models a successful Python float()
call; the description defaults to the empty string and is stripped of
surrounding quotes. -/
def csvNormalizeRow (parseF : String → JNum) (row : CsvRow) : Event :=
  { city := row.city
    temperature_celsius :=
      match row.temperature with
      | none => none
      | some t => if t = "" then none else some (parseF t)
    description := some (stripQuotes (row.description.getD ""))
    source_provider := "csv_file" }

/-- CsvSource.fetch_many (src/main2.py lines 98-114): one normalized record
per CSV row, in file order; rows is the parsed content of the file (an
absent or unreadable path yields no rows). -/
def csvFetchMany (parseF : String → JNum) (rows : List CsvRow) : List Event :=
  rows.map (csvNormalizeRow parseF)

/-- normalize_open_weather (src/main.py lines 47-53): same field extraction as
OpenWeatherSource._normalize up to the absent-vs-null distinction, which the
model collapses. -/
def normalize_open_weather (raw : RawOW) : Event :=
  { city := raw.name
    temperature_celsius := (raw.main.getD { temp := none }).temp
    description :=
      (match raw.weather with
        | none => ({ description := none } : RawWeatherItem)
        | some [] => ({ description := none } : RawWeatherItem)
        | some (w :: _) => w).description
    source_provider := "open_weather" }

/-- normalize_weather_api (src/main.py lines 55-61). -/
def normalize_weather_api (raw : RawWA) : Event :=
  { city := (raw.location.getD { name := none }).name
    temperature_celsius := (raw.current.getD { temp_c := none, condition := none }).temp_c
    description :=
      (((raw.current.getD { temp_c := none, condition := none }).condition).getD
        { text := none }).text
    source_provider := "weather_api" }

/-- The row normalization of read_csv_file (src/main.py lines 133-147): the
columns are indexed directly (a missing column would raise), so this variant
is modelled on rows with all three columns present; its provider tag is
"csv file". -/
def readCsvRowV1 (parseF : String → JNum) (city temperature description : String) :
    Event :=
  { city := some city, temperature_celsius := some (parseF temperature),
    description := some (stripQuotes description), source_provider := "csv file" }

-- ------------ Claim C9 ------------

/-- C9: every NormalizedEvent produced by any source variant (CSV row,
OpenWeather, WeatherAPI, in both src/main2.py and src/main.py) carries a
fixed non-empty source_provider tag; and on a fully empty input record the
other fields degrade to null (description degrades to the empty string for
the CSV variant, whose missing column defaults to "") while the tag is still
present. -/
theorem C9_source_provider_always_nonempty (raw : RawOW) (raw2 : RawWA)
    (parseF : String → JNum) (row : CsvRow) (c t d : String) :
    ((owNormalize raw).source_provider = "open_weather" ∧
      (waNormalize raw2).source_provider = "weather_api" ∧
      (csvNormalizeRow parseF row).source_provider = "csv_file" ∧
      (normalize_open_weather raw).source_provider = "open_weather" ∧
      (normalize_weather_api raw2).source_provider = "weather_api" ∧
      (readCsvRowV1 parseF c t d).source_provider = "csv file") ∧
    ((owNormalize raw).source_provider ≠ "" ∧
      (waNormalize raw2).source_provider ≠ "" ∧
      (csvNormalizeRow parseF row).source_provider ≠ "" ∧
      (normalize_open_weather raw).source_provider ≠ "" ∧
      (normalize_weather_api raw2).source_provider ≠ "" ∧
      (readCsvRowV1 parseF c t d).source_provider ≠ "") ∧
    owNormalize { name := none, main := none, weather := none } =
      { city := none, temperature_celsius := none, description := none,
        source_provider := "open_weather" } ∧
    waNormalize { location := none, current := none } =
      { city := none, temperature_celsius := none, description := none,
        source_provider := "weather_api" } ∧
    csvNormalizeRow parseF { city := none, temperature := none, description := none } =
      { city := none, temperature_celsius := none, description := some "",
        source_provider := "csv_file" } := by
  refine ⟨⟨rfl, rfl, rfl, rfl, rfl, rfl⟩,
    ⟨?_, ?_, ?_, ?_, ?_, ?_⟩, by decide, by decide, ?_⟩
  case refine_7 =>
    simp [csvNormalizeRow, stripQuotes]
  · show "open_weather" ≠ ""
    decide
  · show "weather_api" ≠ ""
    decide
  · show "csv_file" ≠ ""
    decide
  · show "open_weather" ≠ ""
    decide
  · show "weather_api" ≠ ""
    decide
  · show "csv file" ≠ ""
    decide

-- ------------ NDJSON encoding (to_ndjson_bytes, src/main2.py lines 62-78) ------------

/-- The character of a decimal digit. -/
def digitChar (d : Digit) : Char := Char.ofNat (48 + d.val)

/-- Lowercase hexadecimal digit character, for values below 16. -/
def hexDigitChar (n : Nat) : Char :=
  if n < 10 then Char.ofNat (48 + n) else Char.ofNat (87 + n)

/-- The escaping of one character performed by json.dumps with
ensure_ascii=False: double quote and backslash are escaped, the five control
characters with short escapes use them, any other control character below
0x20 becomes a four-digit lowercase unicode escape, and every other
character is emitted raw. -/
def escChar (c : Char) : List Char :=
  if c = '"' then ['\\', '"']
  else if c = '\\' then ['\\', '\\']
  else if c = '\n' then ['\\', 'n']
  else if c = '\t' then ['\\', 't']
  else if c = '\r' then ['\\', 'r']
  else if c = Char.ofNat 8 then ['\\', 'b']
  else if c = Char.ofNat 12 then ['\\', 'f']
  else if c.toNat < 32 then
    ['\\', 'u', '0', '0', hexDigitChar (c.toNat / 16), hexDigitChar (c.toNat % 16)]
  else [c]

/-- A JSON string literal: opening quote, escaped content, closing quote. -/
def renderJStr (s : String) : List Char :=
  '"' :: (s.data.flatMap escChar ++ ['"'])

/-- The characters of a JSON number literal: optional minus sign, integer
digits, decimal point, fractional digits. -/
def renderJNum (n : JNum) : List Char :=
  (if n.neg then ['-'] else []) ++
    ((n.ipHead :: n.ipTail).map digitChar ++
      '.' :: (n.fpHead :: n.fpTail).map digitChar)

/-- The characters of the JSON null literal. -/
def nullChars : List Char := ['n', 'u', 'l', 'l']

/-- A nullable string value. -/
def renderOptStr : Option String → List Char
  | none => nullChars
  | some s => renderJStr s

/-- A nullable number value. -/
def renderOptNum : Option JNum → List Char
  | none => nullChars
  | some n => renderJNum n

/-- A quoted object key (the four fixed keys contain no escapable
characters). -/
def keyChars (k : String) : List Char := '"' :: (k.data ++ ['"'])

/-- The key-value separator of json.dumps (default ": "). -/
def colonSp : List Char := [':', ' ']

/-- The member separator of json.dumps (default ", "). -/
def commaSp : List Char := [',', ' ']

/-- The opening brace, quoted city key and key-value separator. -/
def litHead : List Char := Char.ofNat 123 :: (keyChars "city" ++ colonSp)

/-- The member separator, quoted temperature_celsius key and key-value
separator. -/
def litTemp : List Char := commaSp ++ keyChars "temperature_celsius" ++ colonSp

/-- The member separator, quoted description key and key-value separator. -/
def litDesc : List Char := commaSp ++ keyChars "description" ++ colonSp

/-- The member separator, quoted source_provider key and key-value
separator. -/
def litProv : List Char := commaSp ++ keyChars "source_provider" ++ colonSp

/-- json.dumps(e, ensure_ascii=False) for one event dict (src/main2.py line
69): the four fields in insertion order city, temperature_celsius,
description, source_provider, between braces. -/
def renderEvent (e : Event) : List Char :=
  litHead ++ renderOptStr e.city ++ litTemp ++ renderOptNum e.temperature_celsius ++
    litDesc ++ renderOptStr e.description ++ litProv ++
    renderJStr e.source_provider ++ [Char.ofNat 125]

/-- The newline-joined concatenation of lines (str.join with a newline). -/
def joinNl : List (List Char) → List Char
  | [] => []
  | [l] => l
  | l :: ls => l ++ '\n' :: joinNl ls

/-- The NDJSON character stream of a batch: newline-joined per-event dumps
plus a trailing newline (src/main2.py line 69). -/
def ndjsonChars (events : List Event) : List Char :=
  joinNl (events.map renderEvent) ++ ['\n']

/-- The NDJSON text of a batch. -/
def ndjson (events : List Event) : String := String.mk (ndjsonChars events)

/-- An abstract lossless compressor modelling the gzip module (an external
library, not code of this repository): compression of the text into bytes,
with decompression as a left inverse — the losslessness of the stream format
is the only property the encoder relies on. -/
structure GzipCodec where
  compress : String → List Nat
  decompress : List Nat → String
  decompress_compress : ∀ s, decompress (compress s) = s

/-- The body of an encoded batch: uncompressed UTF-8 text, or
gzip-compressed bytes. -/
inductive Body where
  | plain (s : String)
  | gzipped (bytes : List Nat)
deriving DecidableEq

/-- to_ndjson_bytes (src/main2.py lines 62-78): an empty batch gives an empty
body with the plain content-type header; otherwise the NDJSON text is built,
and if its length exceeds NDJSON_GZIP_THRESHOLD it is compressed and the
Content-Encoding header added, else the text is sent uncompressed.  The
Python len(s) counts characters of the pre-encoded string, matching
String.length. -/
def to_ndjson_bytes (G : GzipCodec) (events : List Event) :
    Body × List (String × String) :=
  if events.isEmpty then
    (Body.plain "", [("Content-Type", "application/x-ndjson")])
  else
    let s := ndjson events
    if NDJSON_GZIP_THRESHOLD < s.length then
      (Body.gzipped (G.compress s),
        [("Content-Type", "application/x-ndjson"), ("Content-Encoding", "gzip")])
    else
      (Body.plain s, [("Content-Type", "application/x-ndjson")])

-- ------------ NDJSON parsing (the decoding direction of the round trip) ------------

/-- Strip an expected literal from the front of the character stream. -/
def dropLit : List Char → List Char → Option (List Char)
  | [], cs => some cs
  | _ :: _, [] => none
  | p :: ps, c :: cs => if c = p then dropLit ps cs else none

/-- Numeric value of a lowercase hexadecimal digit character. -/
def hexVal (c : Char) : Option Nat :=
  if 48 ≤ c.toNat ∧ c.toNat ≤ 57 then some (c.toNat - 48)
  else if 97 ≤ c.toNat ∧ c.toNat ≤ 102 then some (c.toNat - 87)
  else none

/-- Decode one short escape character. -/
def simpleEsc (e : Char) : Option Char :=
  if e = '"' then some '"'
  else if e = '\\' then some '\\'
  else if e = 'n' then some '\n'
  else if e = 't' then some '\t'
  else if e = 'r' then some '\r'
  else if e = 'b' then some (Char.ofNat 8)
  else if e = 'f' then some (Char.ofNat 12)
  else none

/-- Parse the remainder of a JSON string literal after its opening quote:
returns the unescaped content and the characters following the closing
quote. -/
def parseJStr : List Char → Option (List Char × List Char)
  | [] => none
  | c :: cs =>
    if c = '"' then some ([], cs)
    else if c = '\\' then
      match cs with
      | 'u' :: h1 :: h2 :: h3 :: h4 :: cs4 =>
        match hexVal h1, hexVal h2, hexVal h3, hexVal h4 with
        | some a, some b, some v1, some v2 =>
          (parseJStr cs4).map (fun p =>
            (Char.ofNat (((a * 16 + b) * 16 + v1) * 16 + v2) :: p.1, p.2))
        | _, _, _, _ => none
      | e :: cs2 =>
        match simpleEsc e with
        | some ch => (parseJStr cs2).map (fun p => (ch :: p.1, p.2))
        | none => none
      | [] => none
    else (parseJStr cs).map (fun p => (c :: p.1, p.2))

/-- Parse a maximal run of decimal digit characters. -/
def parseDigits : List Char → List Digit × List Char
  | [] => ([], [])
  | c :: cs =>
    if h : 48 ≤ c.toNat ∧ c.toNat ≤ 57 then
      let p := parseDigits cs
      (⟨c.toNat - 48, by omega⟩ :: p.1, p.2)
    else ([], c :: cs)

/-- Parse an unsigned JSON number literal of the emitted shape: integer
digits, dot, fractional digits. -/
def parseJNumCore (cs : List Char) : Option (JNum × List Char) :=
  match parseDigits cs with
  | (i :: is, cs2) =>
    match cs2 with
    | '.' :: cs3 =>
      match parseDigits cs3 with
      | (f :: fs, cs4) =>
        some ({ neg := false, ipHead := i, ipTail := is,
                fpHead := f, fpTail := fs }, cs4)
      | ([], _) => none
    | _ => none
  | ([], _) => none

/-- Parse a JSON number literal with an optional minus sign. -/
def parseJNum (cs : List Char) : Option (JNum × List Char) :=
  match cs with
  | [] => none
  | c :: cs1 =>
    if c = '-' then
      (parseJNumCore cs1).map (fun p =>
        ({ neg := true, ipHead := p.1.ipHead, ipTail := p.1.ipTail,
           fpHead := p.1.fpHead, fpTail := p.1.fpTail }, p.2))
    else parseJNumCore (c :: cs1)

/-- Parse a value that is either the null literal or a string literal. -/
def parseOptStr (cs : List Char) : Option (Option String × List Char) :=
  match cs with
  | [] => none
  | c :: cs1 =>
    if c = 'n' then (dropLit ['u', 'l', 'l'] cs1).map (fun r => ((none : Option String), r))
    else if c = '"' then (parseJStr cs1).map (fun p => (some (String.mk p.1), p.2))
    else none

/-- Parse a value that is either the null literal or a number literal. -/
def parseOptNum (cs : List Char) : Option (Option JNum × List Char) :=
  match cs with
  | [] => none
  | c :: cs1 =>
    if c = 'n' then (dropLit ['u', 'l', 'l'] cs1).map (fun r => ((none : Option JNum), r))
    else (parseJNum (c :: cs1)).map (fun p => (some p.1, p.2))

/-- Parse one NDJSON line of the emitted event shape back into an event. -/
def parseEventLine (cs : List Char) : Option Event :=
  match dropLit litHead cs with
  | none => none
  | some cs1 =>
    match parseOptStr cs1 with
    | none => none
    | some (city, cs2) =>
      match dropLit litTemp cs2 with
      | none => none
      | some cs3 =>
        match parseOptNum cs3 with
        | none => none
        | some (temp, cs4) =>
          match dropLit litDesc cs4 with
          | none => none
          | some cs5 =>
            match parseOptStr cs5 with
            | none => none
            | some (desc, cs6) =>
              match dropLit litProv cs6 with
              | none => none
              | some cs7 =>
                match cs7 with
                | [] => none
                | c :: cs8 =>
                  if c = '"' then
                    match parseJStr cs8 with
                    | some (sp, [rb]) =>
                      if rb = Char.ofNat 125 then
                        some { city := city, temperature_celsius := temp,
                               description := desc, source_provider := String.mk sp }
                      else none
                    | _ => none
                  else none

/-- Split the character stream at every newline (Python str.split with a
newline argument): one more part than there are newlines. -/
def splitNl : List Char → List (List Char)
  | [] => [[]]
  | c :: cs =>
    if c = '\n' then [] :: splitNl cs
    else
      match splitNl cs with
      | [] => [[c]]
      | l :: ls => (c :: l) :: ls

/-- Parse a list of line parts: every part but the final empty remainder must
parse as an event. -/
def parseLines : List (List Char) → Option (List Event)
  | [] => none
  | [last] => if last = [] then some [] else none
  | l :: ls => do
    let e ← parseEventLine l
    let es ← parseLines ls
    some (e :: es)

/-- Parse an NDJSON document: one JSON object per line, trailing newline. -/
def parseNDJSON (s : String) : Option (List Event) :=
  parseLines (splitNl s.data)

/-- A second sample event exercising a negative number, escaped quote,
backslash, newline and control characters. -/
def evB : Event :=
  { city := none
    temperature_celsius :=
      some { neg := true, ipHead := 2, ipTail := [0], fpHead := 5, fpTail := [] }
    description := some (String.mk ['a', '"', '\\', '\n', Char.ofNat 7, Char.ofNat 31])
    source_provider := "x y" }


-- ------------ Round-trip lemmas ------------

/-- dropLit strips exactly the expected literal. -/
theorem dropLit_append (p cs : List Char) : dropLit p (p ++ cs) = some cs := by
  induction p with
  | nil => rfl
  | cons c t ih => simp [dropLit, ih]

/-- Lowercase hex digits round-trip for values below 16. -/
theorem hexVal_hexDigitChar : ∀ n < 16, hexVal (hexDigitChar n) = some n := by decide

/-- The code of a digit character. -/
theorem digitChar_toNat : ∀ d : Digit, (digitChar d).toNat = 48 + d.val := by decide

/-- Escaped string content round-trips through the string literal parser. -/
theorem parseJStr_flatMap (content : List Char) (rest : List Char) :
    parseJStr (content.flatMap escChar ++ '"' :: rest) = some (content, rest) := by
  induction content with
  | nil =>
    rw [List.flatMap_nil, List.nil_append, parseJStr.eq_def]
    simp
  | cons c t ih =>
    simp only [List.flatMap_cons, List.append_assoc]
    by_cases h1 : c = '"'
    · subst h1; simp [escChar, parseJStr, simpleEsc, ih]
    · by_cases h2 : c = '\\'
      · subst h2; simp [escChar, parseJStr, simpleEsc, ih]
      · by_cases h3 : c = '\n'
        · subst h3; simp [escChar, parseJStr, simpleEsc, ih]
        · by_cases h4 : c = '\t'
          · subst h4; simp [escChar, parseJStr, simpleEsc, ih]
          · by_cases h5 : c = '\r'
            · subst h5; simp [escChar, parseJStr, simpleEsc, ih]
            · by_cases h6 : c = Char.ofNat 8
              · subst h6; simp [escChar, parseJStr, simpleEsc, ih]
              · by_cases h7 : c = Char.ofNat 12
                · subst h7; simp [escChar, parseJStr, simpleEsc, ih]
                · by_cases h8 : c.toNat < 32
                  · have hv1 : hexVal (hexDigitChar (c.toNat / 16)) =
                        some (c.toNat / 16) := hexVal_hexDigitChar _ (by omega)
                    have hv2 : hexVal (hexDigitChar (c.toNat % 16)) =
                        some (c.toNat % 16) := hexVal_hexDigitChar _ (by omega)
                    have hv0 : hexVal '0' = some 0 := by decide
                    have hval : ((0 * 16 + 0) * 16 + c.toNat / 16) * 16 + c.toNat % 16 =
                        c.toNat := by omega
                    simp [escChar, h1, h2, h3, h4, h5, h6, h7, h8, parseJStr,
                      hv0, hv1, hv2, ih, hval, Char.ofNat_toNat]
                    rw [show c.toNat / 16 * 16 + c.toNat % 16 = c.toNat by omega,
                      Char.ofNat_toNat]
                  · simp only [escChar, h1, h2, h3, h4, h5, h6, h7, h8, if_false,
                      List.singleton_append]
                    rw [parseJStr.eq_def]
                    simp only []
                    rw [if_neg h1, if_neg h2]
                    simp [ih]

/-- parseDigits consumes exactly a rendered digit run when the remainder does
not start with a digit. -/
theorem parseDigits_map (ds : List Digit) (rest : List Char)
    (hrest : ∀ c cs, rest = c :: cs → ¬(48 ≤ c.toNat ∧ c.toNat ≤ 57)) :
    parseDigits (ds.map digitChar ++ rest) = (ds, rest) := by
  induction ds with
  | nil =>
    cases rest with
    | nil => rfl
    | cons c cs =>
      simp only [List.map_nil, List.nil_append]
      rw [parseDigits.eq_def]
      simp only []
      rw [dif_neg (hrest c cs rfl)]
  | cons d t ih =>
    simp only [List.map_cons, List.cons_append]
    rw [parseDigits.eq_def]
    simp only []
    have hd : 48 ≤ (digitChar d).toNat ∧ (digitChar d).toNat ≤ 57 := by
      rw [digitChar_toNat]
      have := d.isLt
      omega
    rw [dif_pos hd]
    simp only [ih]
    have hfin : (⟨(digitChar d).toNat - 48, by omega⟩ : Digit) = d := by
      have h1 := digitChar_toNat d
      apply Fin.ext
      simp [h1]
    rw [hfin]

/-- An unsigned number literal round-trips when the remainder does not start
with a digit. -/
theorem parseJNumCore_render (i : Digit) (is : List Digit) (f : Digit)
    (fs : List Digit) (rest : List Char)
    (hrest : ∀ c cs, rest = c :: cs → ¬(48 ≤ c.toNat ∧ c.toNat ≤ 57)) :
    parseJNumCore ((i :: is).map digitChar ++
        ('.' :: ((f :: fs).map digitChar ++ rest))) =
      some ({ neg := false, ipHead := i, ipTail := is, fpHead := f, fpTail := fs },
        rest) := by
  have h1 : parseDigits ((i :: is).map digitChar ++
      ('.' :: ((f :: fs).map digitChar ++ rest))) =
      (i :: is, '.' :: ((f :: fs).map digitChar ++ rest)) := by
    apply parseDigits_map
    intro c cs h
    cases h
    decide
  have h2 : parseDigits ((f :: fs).map digitChar ++ rest) = (f :: fs, rest) :=
    parseDigits_map _ _ hrest
  rw [parseJNumCore, h1]
  simp only [h2]

/-- A number literal round-trips when the remainder does not start with a
digit. -/
theorem parseJNum_render (n : JNum) (rest : List Char)
    (hrest : ∀ c cs, rest = c :: cs → ¬(48 ≤ c.toNat ∧ c.toNat ≤ 57)) :
    parseJNum (renderJNum n ++ rest) = some (n, rest) := by
  obtain ⟨neg, i, is, f, fs⟩ := n
  have hdig : digitChar i ≠ '-' := by
    intro h
    have := congrArg Char.toNat h
    rw [digitChar_toNat] at this
    have h45 : ('-' : Char).toNat = 45 := by decide
    omega
  have hcore := parseJNumCore_render i is f fs rest hrest
  simp only [List.map_cons, List.cons_append, List.append_assoc] at hcore
  cases neg with
  | false =>
    simp only [renderJNum, Bool.false_eq_true, if_false, List.nil_append,
      List.map_cons, List.cons_append, List.append_assoc]
    rw [parseJNum]
    rw [if_neg hdig]
    exact hcore
  | true =>
    simp only [renderJNum, if_true, List.map_cons, List.cons_append,
      List.singleton_append, List.append_assoc]
    rw [parseJNum]
    simp [hcore]

/-- A nullable string value round-trips (strings are self-delimiting). -/
theorem parseOptStr_render (v : Option String) (rest : List Char) :
    parseOptStr (renderOptStr v ++ rest) = some (v, rest) := by
  cases v with
  | none =>
    simp only [renderOptStr, nullChars, List.cons_append, List.nil_append]
    rw [parseOptStr]
    simp [dropLit]
  | some s =>
    simp only [renderOptStr, renderJStr, List.cons_append, List.append_assoc,
      List.singleton_append]
    rw [parseOptStr]
    rw [if_neg (by decide), if_pos rfl]
    rw [parseJStr_flatMap]
    rfl

/-- A nullable number value round-trips when the remainder does not start
with a digit. -/
theorem parseOptNum_render (v : Option JNum) (rest : List Char)
    (hrest : ∀ c cs, rest = c :: cs → ¬(48 ≤ c.toNat ∧ c.toNat ≤ 57)) :
    parseOptNum (renderOptNum v ++ rest) = some (v, rest) := by
  cases v with
  | none =>
    simp only [renderOptNum, nullChars, List.cons_append, List.nil_append]
    rw [parseOptNum]
    simp [dropLit]
  | some n =>
    obtain ⟨neg, i, is, f, fs⟩ := n
    have hnum := parseJNum_render ⟨neg, i, is, f, fs⟩ rest hrest
    cases neg with
    | false =>
      have hdign : digitChar i ≠ 'n' := by
        intro h
        have := congrArg Char.toNat h
        rw [digitChar_toNat] at this
        have h110 : ('n' : Char).toNat = 110 := by decide
        have := i.isLt
        omega
      simp only [renderOptNum, renderJNum, Bool.false_eq_true, if_false,
        List.nil_append, List.map_cons, List.cons_append, List.append_assoc] at hnum ⊢
      rw [parseOptNum]
      rw [if_neg hdign, hnum]
      rfl
    | true =>
      simp only [renderOptNum, renderJNum, if_true, List.map_cons,
        List.cons_append, List.singleton_append, List.append_assoc] at hnum ⊢
      rw [parseOptNum]
      rw [if_neg (by decide), hnum]
      rfl

/-- Specialization of the nullable-number round trip to a remainder that
starts with the description key segment (a comma, not a digit). -/
theorem parseOptNum_render_litDesc (v : Option JNum) (rest : List Char) :
    parseOptNum (renderOptNum v ++ (litDesc ++ rest)) =
      some (v, litDesc ++ rest) := by
  apply parseOptNum_render
  intro c cs h
  have h2 : (',' : Char) :: (' ' :: ((keyChars "description" ++ colonSp) ++ rest)) =
      c :: cs := h
  injection h2 with h1 _
  subst h1
  decide

/-- One emitted NDJSON line parses back to exactly its event. -/
theorem parseEventLine_render (e : Event) : parseEventLine (renderEvent e) = some e := by
  obtain ⟨city, temp, desc, sp⟩ := e
  simp only [parseEventLine, renderEvent, renderJStr, List.append_assoc,
    List.cons_append, List.singleton_append, dropLit_append, parseOptStr_render,
    parseOptNum_render_litDesc, parseJStr_flatMap]
  simp only [if_true, List.nil_append]

/-- No escape output contains a newline. -/
theorem nl_not_mem_escChar (c : Char) : '\n' ∉ escChar c := by
  unfold escChar
  split_ifs with h1 h2 h3 h4 h5 h6 h7 h8
  · decide
  · decide
  · decide
  · decide
  · decide
  · decide
  · decide
  · have hx : ∀ n < 16, ¬ ('\n' = hexDigitChar n) := by decide
    intro hm
    simp only [List.mem_cons, List.not_mem_nil, or_false] at hm
    rcases hm with h | h | h | h | h | h
    · exact absurd h (by decide)
    · exact absurd h (by decide)
    · exact absurd h (by decide)
    · exact absurd h (by decide)
    · exact hx (c.toNat / 16) (by omega) h
    · exact hx (c.toNat % 16) (by omega) h
  · intro hm
    simp only [List.mem_singleton] at hm
    rw [← hm] at h8
    exact h8 (by decide)

/-- A rendered string literal contains no newline. -/
theorem nl_not_mem_jstr (s : String) : '\n' ∉ renderJStr s := by
  intro hm
  simp only [renderJStr, List.mem_cons, List.mem_append, List.mem_flatMap,
    List.mem_singleton] at hm
  rcases hm with h | ⟨a, _, ha⟩ | h
  · exact absurd h (by decide)
  · exact nl_not_mem_escChar a ha
  · exact absurd h (by decide)

/-- A rendered number literal contains no newline. -/
theorem nl_not_mem_jnum (n : JNum) : '\n' ∉ renderJNum n := by
  obtain ⟨neg, i, is, f, fs⟩ := n
  have hd1 : ∀ d : Digit, ¬ ('\n' = digitChar d) := by decide
  have hd2 : ∀ d : Digit, ¬ (digitChar d = '\n') := by decide
  have hdot : ¬ (('\n' : Char) = '.') := by decide
  have hminus : ¬ (('\n' : Char) = '-') := by decide
  intro hm
  cases neg <;>
    simp [renderJNum, List.mem_append, List.mem_cons, List.mem_map, hd1, hd2,
      hdot, hminus] at hm

/-- A rendered nullable string contains no newline. -/
theorem nl_not_mem_optStr (v : Option String) : '\n' ∉ renderOptStr v := by
  cases v with
  | none => decide
  | some s => exact nl_not_mem_jstr s

/-- A rendered nullable number contains no newline. -/
theorem nl_not_mem_optNum (v : Option JNum) : '\n' ∉ renderOptNum v := by
  cases v with
  | none => decide
  | some n => exact nl_not_mem_jnum n

/-- A rendered event line contains no newline: escaping removes every control
character, so each event occupies exactly one line. -/
theorem nl_not_mem_renderEvent (e : Event) : '\n' ∉ renderEvent e := by
  obtain ⟨city, temp, desc, sp⟩ := e
  intro hm
  simp only [renderEvent, List.mem_append, List.mem_singleton] at hm
  rcases hm with ((((((((h | h) | h) | h) | h) | h) | h) | h) | h)
  · exact absurd h (by decide)
  · exact nl_not_mem_optStr city h
  · exact absurd h (by decide)
  · exact nl_not_mem_optNum temp h
  · exact absurd h (by decide)
  · exact nl_not_mem_optStr desc h
  · exact absurd h (by decide)
  · exact nl_not_mem_jstr sp h
  · exact absurd h (by decide)

/-- Splitting after a newline-free line recovers the line. -/
theorem splitNl_append_line (l rest : List Char) (hl : '\n' ∉ l) :
    splitNl (l ++ '\n' :: rest) = l :: splitNl rest := by
  induction l with
  | nil =>
    rw [List.nil_append, splitNl.eq_def]
    simp
  | cons c t ih =>
    have hc : ¬ (c = '\n') := fun h => hl (by rw [h]; exact List.mem_cons_self _ _)
    have ht : '\n' ∉ t := fun h => hl (List.mem_cons_of_mem _ h)
    rw [List.cons_append, splitNl.eq_def]
    simp only []
    rw [if_neg hc, ih ht]

/-- Splitting the NDJSON stream of a non-empty batch yields exactly the
rendered lines followed by one empty remainder (the trailing newline). -/
theorem splitNl_ndjson (events : List Event) (h : events ≠ []) :
    splitNl (ndjsonChars events) = events.map renderEvent ++ [[]] := by
  induction events with
  | nil => exact absurd rfl h
  | cons a t ih =>
    cases t with
    | nil =>
      simp only [ndjsonChars, joinNl, List.map_cons, List.map_nil]
      rw [splitNl_append_line _ _ (nl_not_mem_renderEvent a)]
      rfl
    | cons b t2 =>
      simp only [ndjsonChars, List.map_cons] at ih ⊢
      rw [show joinNl (renderEvent a :: renderEvent b :: List.map renderEvent t2) =
        renderEvent a ++ '\n' :: joinNl (renderEvent b :: List.map renderEvent t2)
        from rfl]
      rw [List.append_assoc, List.cons_append]
      rw [splitNl_append_line _ _ (nl_not_mem_renderEvent a)]
      rw [ih (by simp)]
      simp

/-- parseLines on a cons with a non-empty tail always takes the event-line
branch. -/
theorem parseLines_cons (l : List Char) (ls : List (List Char)) (h : ls ≠ []) :
    parseLines (l :: ls) =
      (parseEventLine l).bind (fun e => (parseLines ls).bind
        (fun es => some (e :: es))) := by
  cases ls with
  | nil => exact absurd rfl h
  | cons b bs => rfl

/-- The rendered lines (with the empty trailing remainder) parse back to the
event list. -/
theorem parseLines_map_render (events : List Event) :
    parseLines (events.map renderEvent ++ [[]]) = some events := by
  induction events with
  | nil => rfl
  | cons a t ih =>
    rw [List.map_cons, List.cons_append,
      parseLines_cons _ _ (by simp), parseEventLine_render a, ih]
    rfl

/-- The NDJSON document of a non-empty batch parses back to exactly the
batch, in order. -/
theorem parseNDJSON_ndjson (events : List Event) (h : events ≠ []) :
    parseNDJSON (ndjson events) = some events := by
  rw [parseNDJSON]
  rw [show (ndjson events).data = ndjsonChars events from rfl]
  rw [splitNl_ndjson events h, parseLines_map_render]

-- ------------ Claim C5 ------------

/-- C5: the Content-Encoding gzip header is added exactly when the
uncompressed encoded length exceeds NDJSON_GZIP_THRESHOLD (64000); in that
case the body is the compressed NDJSON text, and it decompresses to exactly
the text the uncompressed path would have produced; otherwise the body is
the uncompressed text (empty for an empty batch) with no Content-Encoding
header. -/
theorem C5_compression_iff_threshold (G : GzipCodec) (events : List Event) :
    ((("Content-Encoding", "gzip") ∈ (to_ndjson_bytes G events).2) ↔
      (events ≠ [] ∧ NDJSON_GZIP_THRESHOLD < (ndjson events).length)) ∧
    (if events = [] then (to_ndjson_bytes G events).1 = Body.plain ""
      else if NDJSON_GZIP_THRESHOLD < (ndjson events).length then
        (to_ndjson_bytes G events).1 = Body.gzipped (G.compress (ndjson events)) ∧
          G.decompress (G.compress (ndjson events)) = ndjson events
      else (to_ndjson_bytes G events).1 = Body.plain (ndjson events)) := by
  by_cases he : events = []
  · subst he
    refine ⟨?_, by simp [to_ndjson_bytes]⟩
    simp only [to_ndjson_bytes, List.isEmpty_nil, if_true]
    constructor
    · intro hmem
      exact absurd hmem (by decide)
    · rintro ⟨h1, _⟩
      exact absurd rfl h1
  · have hemp : events.isEmpty = false := by
      cases events with
      | nil => exact absurd rfl he
      | cons x xs => rfl
    by_cases hlen : NDJSON_GZIP_THRESHOLD < (ndjson events).length
    · refine ⟨?_, ?_⟩
      · simp only [to_ndjson_bytes, hemp, Bool.false_eq_true, if_false, hlen, if_true]
        constructor
        · intro _
          exact ⟨he, trivial⟩
        · intro _
          decide
      · simp [he, hlen, to_ndjson_bytes, hemp, G.decompress_compress]
    · refine ⟨?_, ?_⟩
      · simp only [to_ndjson_bytes, hemp, Bool.false_eq_true, if_false, hlen]
        constructor
        · intro hmem
          exact absurd hmem (by decide)
        · rintro ⟨_, h2⟩
          exact h2.elim
      · simp [he, hlen, to_ndjson_bytes, hemp]

-- ------------ Claim C6 ------------

/-- C6: for a non-empty batch whose encoded length does not exceed the
threshold, the payload is the uncompressed NDJSON text with only the plain
content-type header; the text is one rendered JSON object per line (with the
fixed field order city, temperature_celsius, description, source_provider)
followed by a trailing newline, so splitting at newlines yields exactly the
rendered event lines plus one empty remainder; and parsing the lines yields
the original event list, in order. -/
theorem C6_uncompressed_roundtrip (G : GzipCodec) (events : List Event)
    (hne : events ≠ [])
    (hlen : (ndjson events).length ≤ NDJSON_GZIP_THRESHOLD) :
    to_ndjson_bytes G events =
      (Body.plain (ndjson events), [("Content-Type", "application/x-ndjson")]) ∧
    splitNl (ndjson events).data = events.map renderEvent ++ [[]] ∧
    parseNDJSON (ndjson events) = some events := by
  have hemp : events.isEmpty = false := by
    cases events with
    | nil => exact absurd rfl hne
    | cons x xs => rfl
  refine ⟨?_, splitNl_ndjson events hne, parseNDJSON_ndjson events hne⟩
  rw [to_ndjson_bytes]
  simp [hemp, Nat.not_lt.mpr hlen]

/-- A concrete lossless codec (character codes as bytes), used to instantiate
the witness. -/
def idCodec : GzipCodec where
  compress s := s.data.map Char.toNat
  decompress l := String.mk (l.map Char.ofNat)
  decompress_compress s := by
    show String.mk ((s.data.map Char.toNat).map Char.ofNat) = s
    rw [List.map_map]
    have hcomp : (Char.ofNat ∘ Char.toNat) = id := funext Char.ofNat_toNat
    rw [hcomp, List.map_id]

set_option maxRecDepth 4000 in
/-- Witness for C6 at a concrete two-event batch below the threshold. -/
theorem C6_witness :
    to_ndjson_bytes idCodec [evA, evB] =
      (Body.plain (ndjson [evA, evB]),
        [("Content-Type", "application/x-ndjson")]) ∧
    parseNDJSON (ndjson [evA, evB]) = some [evA, evB] :=
  ⟨(C6_uncompressed_roundtrip idCodec [evA, evB] (by decide) (by decide)).1,
   (C6_uncompressed_roundtrip idCodec [evA, evB] (by decide) (by decide)).2.2⟩

/-- Witness for C5 at a concrete one-event batch (below threshold: no
Content-Encoding header) with the concrete codec. -/
theorem C5_witness :
    (("Content-Encoding", "gzip") ∈ (to_ndjson_bytes idCodec [evA]).2) ↔
      ([evA] ≠ [] ∧ NDJSON_GZIP_THRESHOLD < (ndjson [evA]).length) :=
  (C5_compression_iff_threshold idCodec [evA]).1
